import Mathlib

/-!
Verification of the dynamic per-study schema and data-point persistence layer
of the commonspace repository (the pg data-access module).

The JavaScript/TypeScript source is shallowly embedded: JS runtime values are
modelled by `JSVal`, JS objects by insertion-ordered association lists,
thrown exceptions by `Except String`, and template-literal string building by
explicit string concatenation.  All definitions are executable.
-/

set_option maxRecDepth 10000

namespace Commonspace

/-- Is an `Except` computation a success? (models "did not throw"). -/
def exOk {ε α : Type} : Except ε α → Bool
  | .ok _ => true
  | .error _ => false

/-- Is an `Except` computation a failure? (models "threw an exception"). -/
def exErr {ε α : Type} : Except ε α → Bool
  | .ok _ => false
  | .error _ => true

/-- Decimal digit character, used to render numbers the way JS template
literals render them. -/
def digitChar : Nat → Char
  | 0 => '0'
  | 1 => '1'
  | 2 => '2'
  | 3 => '3'
  | 4 => '4'
  | 5 => '5'
  | 6 => '6'
  | 7 => '7'
  | 8 => '8'
  | _ => '9'

/-- Fuelled decimal rendering of a natural number (fuel keeps the recursion
structural so that concrete values evaluate by rewriting). -/
def natCharsAux : Nat → Nat → List Char
  | 0, _ => []
  | fuel + 1, n =>
    if n < 10 then [digitChar n]
    else natCharsAux fuel (n / 10) ++ [digitChar (n % 10)]

/-- Decimal rendering of a natural number. -/
def natStr (n : Nat) : String := ⟨natCharsAux (n + 1) n⟩

/-- Decimal rendering of an integer, as JS stringifies numbers. -/
def intStr : Int → String
  | .ofNat n => natStr n
  | .negSucc n => "-" ++ natStr (n + 1)

/-- Count occurrences of the parameter marker in a string: the number of
placeholders a SQL fragment contains. -/
def dollarCount (s : String) : Nat := s.data.count '$'

/-- JS `Array.prototype.join(', ')` on a list of strings. -/
def joinCS : List String → String
  | [] => ""
  | [s] => s
  | s :: rest => s ++ ", " ++ joinCS rest

/-- Does the pattern occur at the head of the character list? -/
def listStartsWith : List Char → List Char → Bool
  | _, [] => true
  | [], _ :: _ => false
  | c :: cs, p :: ps => c == p && listStartsWith cs ps

/-- Does the pattern occur anywhere inside the character list? -/
def listHasSub : List Char → List Char → Bool
  | [], pat => pat.isEmpty
  | c :: cs, pat => listStartsWith (c :: cs) pat || listHasSub cs pat

/-- Substring test on strings (used to state which column definitions a DDL
statement contains). -/
def strContains (s pat : String) : Bool := listHasSub s.data pat.data

/-- JS runtime values, as far as the data-access layer inspects them:
`null`, `undefined`, strings, (numeric) numbers, booleans, arrays and
plain objects (insertion-ordered key/value lists). -/
inductive JSVal where
  | null
  | undef
  | str (s : String)
  | num (n : Int)
  | bool (b : Bool)
  | arr (xs : List JSVal)
  | obj (fields : List (String × JSVal))

/-- JS strict equality against a string literal (`v === 'lit'`). -/
def jsStrictEqStr (v : JSVal) (lit : String) : Bool :=
  match v with
  | .str t => t == lit
  | _ => false

/-- JS truthiness. -/
def jsTruthy : JSVal → Bool
  | .null => false
  | .undef => false
  | .str s => !s.isEmpty
  | .num n => n != 0
  | .bool b => b
  | .arr _ => true
  | .obj _ => true

mutual

/-- JS `String(v)` / template-literal stringification. -/
def jsToString : JSVal → String
  | .null => "null"
  | .undef => "undefined"
  | .str s => s
  | .num n => intStr n
  | .bool b => if b then "true" else "false"
  | .arr xs => jsArrJoin xs
  | .obj _ => "[object Object]"

/-- Stringification of one array element inside `Array.prototype.toString`:
`null` and `undefined` render as the empty string. -/
def jsElemString : JSVal → String
  | .null => ""
  | .undef => ""
  | .str s => s
  | .num n => intStr n
  | .bool b => if b then "true" else "false"
  | .arr xs => jsArrJoin xs
  | .obj _ => "[object Object]"

/-- `Array.prototype.toString`: elements joined with a comma. -/
def jsArrJoin : List JSVal → String
  | [] => ""
  | [x] => jsElemString x
  | x :: rest => jsElemString x ++ "," ++ jsArrJoin rest

end

/-- JSON string escaping for one character. -/
def jsonEscapeChar (c : Char) : List Char :=
  if c = '"' then ['\\', '"']
  else if c = '\\' then ['\\', '\\']
  else [c]

/-- A JSON string literal with quotes. -/
def jsonQuote (s : String) : String :=
  ⟨'"' :: (s.data.map jsonEscapeChar).flatten ++ ['"']⟩

/-- Comma-join, used for JSON member lists. -/
def joinComma : List String → String
  | [] => ""
  | [s] => s
  | s :: rest => s ++ "," ++ joinComma rest

mutual

/-- `JSON.stringify` on a value; `none` models the JS result `undefined`. -/
def jsonStringifyVal : JSVal → Option String
  | .null => some "null"
  | .undef => none
  | .str s => some (jsonQuote s)
  | .num n => some (intStr n)
  | .bool b => some (if b then "true" else "false")
  | .arr xs => some ("[" ++ jsonArrBody xs ++ "]")
  | .obj fs => some ("\x7b" ++ joinComma (jsonObjFields fs) ++ "\x7d")

/-- Array elements of `JSON.stringify`; `undefined` elements render `null`. -/
def jsonArrBody : List JSVal → String
  | [] => ""
  | [x] => (jsonStringifyVal x).getD "null"
  | x :: rest => (jsonStringifyVal x).getD "null" ++ "," ++ jsonArrBody rest

/-- Object members of `JSON.stringify`; members whose value stringifies to
`undefined` are omitted. -/
def jsonObjFields : List (String × JSVal) → List String
  | [] => []
  | (k, v) :: rest =>
    match jsonStringifyVal v with
    | none => jsonObjFields rest
    | some sv => (jsonQuote k ++ ":" ++ sv) :: jsonObjFields rest

end

/-- `JSON.stringify` as a JS value (the JS call returns the value
`undefined` when the argument is not serializable). -/
def jsonStringifyJS (v : JSVal) : JSVal :=
  match jsonStringifyVal v with
  | some s => .str s
  | none => (.undef)

/-- JS property access `v[k]`: throws a TypeError on `null`/`undefined`,
looks the key up on objects, and yields `undefined` on other primitives. -/
def getProp : JSVal → String → Except String JSVal
  | .null, k => .error ("TypeError: cannot read property " ++ k ++ " of null")
  | .undef, k => .error ("TypeError: cannot read property " ++ k ++ " of undefined")
  | .obj fs, k =>
    .ok (match fs.find? (fun p => p.1 == k) with
         | some p => p.2
         | none => .undef)
  | _, _ => .ok (.undef)

/-- First value stored under a key of a JS object (`undefined` if absent). -/
def objGet (o : List (String × JSVal)) (k : String) : JSVal :=
  match o.find? (fun p => p.1 == k) with
  | some p => p.2
  | none => (.undef)

/-- JS property assignment `o[k] = v`: updates the entry in place when the
key exists, otherwise appends it (insertion order!). -/
def objSet (o : List (String × JSVal)) (k : String) (v : JSVal) : List (String × JSVal) :=
  if o.any (fun p => p.1 == k) then
    o.map (fun p => if p.1 == k then (k, v) else p)
  else
    o ++ [(k, v)]

/-! Embedding of `javascriptArrayToPostgresArray` and helpers. -/

mutual

/-- The `xs.map(...)` callback results, in order; the first `null` element
throws. -/
def pgArrayElems : List JSVal → Except String (List String)
  | [] => .ok []
  | x :: rest => do
    let e ← pgArrayElem x
    let es ← pgArrayElems rest
    return e :: es

/-- One element of the postgres array serialization, following the source's
branches: `null` throws, strings pass through, arrays recurse, objects
stringify as `[object Object]`, and remaining primitives are stringified by
`join` (which renders `undefined` as the empty string). -/
def pgArrayElem : JSVal → Except String String
  | .null => .error "Cannot convert into a postgres array because the array contrains the value null."
  | .str s => .ok s
  | .arr ys => do
    let elems ← pgArrayElems ys
    return "\x7b" ++ joinCS elems ++ "\x7d"
  | .obj _ => .ok "[object Object]"
  | .undef => .ok ""
  | .num n => .ok (intStr n)
  | .bool b => .ok (if b then "true" else "false")

end

/-- `javascriptArrayToPostgresArray(xs)`: serializes a JS array into a
postgres array literal, throwing if the array contains `null`. -/
def javascriptArrayToPostgresArray (xs : List JSVal) : Except String String := do
  let elems ← pgArrayElems xs
  return "\x7b" ++ joinCS elems ++ "\x7d"

mutual

/-- Does a JS array contain `null` directly or inside a nested array? -/
def hasNullDeep : List JSVal → Bool
  | [] => false
  | x :: rest => valHasNull x || hasNullDeep rest

/-- Is this value `null`, or an array containing `null` at any depth? -/
def valHasNull : JSVal → Bool
  | .null => true
  | .arr ys => hasNullDeep ys
  | _ => false

end

/-- `wrapInArray(x)`: returns the array itself, or a one-element array. -/
def wrapInArray (v : JSVal) : List JSVal :=
  match v with
  | .arr xs => xs
  | x => [x]

/-- The `validDataPointProperties` set of the source: the eleven Gehl fields
plus `survey_id` and `data_point_id`. -/
def validDataPointProperties : List String :=
  ["survey_id", "data_point_id", "gender", "age", "mode", "posture",
   "activities", "groups", "object", "location", "creation_date",
   "last_updated", "note"]

/-- The `allGehlFieldsStrings` set of the source: the eleven Gehl field
names (without `survey_id`/`data_point_id`). -/
def allGehlFieldsStrings : List String :=
  ["gender", "age", "mode", "posture", "activities", "groups", "object",
   "location", "creation_date", "last_updated", "note"]

/-- `convertKeyToParamterBinding(index, key, value)`: produces the SQL
parameter binding for one column and the next placeholder index.  A
`location` whose value has a truthy `type` strictly equal to `'Point'`
consumes one placeholder, any other `location` consumes two, and every
other key consumes one. -/
def convertKeyToParamterBinding (index : Nat) (key : String) (value : JSVal) :
    Except String (Nat × String) :=
  if key == "location" then do
    let t ← getProp value "type"
    if jsTruthy t && jsStrictEqStr t "Point" then
      return (index + 1, "ST_GeomFromGeoJSON($" ++ natStr index ++ ")")
    else
      return (index + 2, "ST_GeomFromText($" ++ natStr index ++ ", $" ++ natStr (index + 1) ++ ")")
  else
    return (index + 1, "$" ++ natStr index)

/-- `processDataPointToValue(key, value)`: the encoded value(s) for one
field, following the source's cases (`location`, the `groups` and `age`
label tables, `activities`, known pass-through fields, unknown key). -/
def processDataPointToValue (key : String) (value : JSVal) : Except String JSVal :=
  if key == "location" then do
    let t ← getProp value "type"
    if jsTruthy t && jsStrictEqStr t "Point" then
      return jsonStringifyJS value
    else do
      let longitude ← getProp value "longitude"
      let latitude ← getProp value "latitude"
      return .arr [longitude, latitude]
  else if key == "groups" then
    if jsStrictEqStr value "single" then return .str "group_1"
    else if jsStrictEqStr value "pair" then return .str "group_2"
    else if jsStrictEqStr value "group" then return .str "group_3-7"
    else if jsStrictEqStr value "crowd" then return .str "group_8+"
    else .error ("invalid value for groups: " ++ jsToString value)
  else if key == "age" then
    if jsStrictEqStr value "child" then return .str "0-14"
    else if jsStrictEqStr value "young" then return .str "15-24"
    else if jsStrictEqStr value "adult" then return .str "25-64"
    else if jsStrictEqStr value "elderly" then return .str "65+"
    else .error ("invalid value for age: " ++ jsToString value)
  else if key == "activities" then do
    let activitesAsArr := match value with
      | .arr xs => xs
      | v => [v]
    let s ← javascriptArrayToPostgresArray activitesAsArr
    return .str s
  else if validDataPointProperties.contains key then
    return .str (jsToString value)
  else
    .error ("Unexpected key " ++ key ++ " in data point")

/-- The accumulator of `processDataPointToPreparedStatement`. -/
structure PSAcc where
  columns : List String
  values : List JSVal
  parameterBindings : List String
  index : Nat

/-- One reduction step of `processKeyAndValues`: pushes the column name,
the parameter binding and the wrapped encoded value(s). -/
def processDataPointToPreparedStatement (acc : PSAcc) : String × JSVal →
    Except String PSAcc
  | (key, value) =>
    match convertKeyToParamterBinding acc.index key value with
    | .error e => .error e
    | .ok (index, binding) =>
      match processDataPointToValue key value with
      | .error e => .error e
      | .ok v =>
        .ok { columns := acc.columns ++ [key],
              values := acc.values ++ wrapInArray v,
              parameterBindings := acc.parameterBindings ++ [binding],
              index := index }

/-- `processKeyAndValues(dataPoint)`: reduce over `Object.entries`. -/
def processKeyAndValues (dataPoint : List (String × JSVal)) : Except String PSAcc :=
  dataPoint.foldlM processDataPointToPreparedStatement
    { columns := [], values := [], parameterBindings := [], index := 1 }

/-- Strict-equality test against `null` (`x === null`): `undefined` is NOT
`null` under strict equality. -/
def isNullB : JSVal → Bool
  | .null => true
  | _ => false

/-- `deleteNonGehlFields(o)`: removes every key not in the eleven Gehl
fields and every key whose value is strictly `null`. -/
def deleteNonGehlFields (o : List (String × JSVal)) : List (String × JSVal) :=
  o.filter (fun p => allGehlFieldsStrings.contains p.1 && !(isNullB p.2))

/-- The record actually encoded by `transformToPostgresInsert`: the stripped
data point with `survey_id` and `data_point_id` re-assigned (the original
`data_point_id` value is captured before stripping). -/
def dataPointForPostgres (surveyId : String) (dataPoint : List (String × JSVal)) :
    List (String × JSVal) :=
  let data_point_id := objGet dataPoint "data_point_id"
  objSet (objSet (deleteNonGehlFields dataPoint) "survey_id" (.str surveyId))
    "data_point_id" data_point_id

/-- The `insert_statement` fragment of `transformToPostgresInsert`. -/
def insertStatementFor (acc : PSAcc) : String :=
  "(" ++ joinCS acc.columns ++ ") VALUES (" ++ joinCS acc.parameterBindings ++ ")"

/-- The result of `transformToPostgresInsert`. -/
structure InsertResult where
  query : String
  values : List JSVal

/-- `transformToPostgresInsert(surveyId, dataPoint)`: strips the record,
force-sets the identifiers, encodes every remaining entry and assembles the
upsert statement fragment. -/
def transformToPostgresInsert (surveyId : String) (dataPoint : List (String × JSVal)) :
    Except String InsertResult := do
  let acc ← processKeyAndValues (dataPointForPostgres surveyId dataPoint)
  let query := insertStatementFor acc ++
    "\n            ON CONFLICT(data_point_id)\n            DO UPDATE SET(" ++
    joinCS acc.columns ++ ") = (" ++ joinCS acc.parameterBindings ++ ")"
  return { query := query, values := acc.values }

/-- The result taken out of a successful encoding (dummy on error). -/
def insResult (r : Except String InsertResult) : InsertResult :=
  match r with
  | .ok a => a
  | .error _ => { query := "", values := [] }

/-- The accumulator taken out of a successful `processKeyAndValues`
(dummy on error). -/
def accResult (r : Except String PSAcc) : PSAcc :=
  match r with
  | .ok a => a
  | .error _ => { columns := [], values := [], parameterBindings := [], index := 1 }

/-- `deleteDataPoint`'s DELETE statement for a survey's table. -/
def deleteDataPointQuery (tablename dataPointId : String) : String :=
  "DELETE FROM " ++ tablename ++
  "\n                   WHERE data_point_id = " ++ "'" ++ dataPointId ++ "'"

/-- The outcome of `deleteDataPoint` as a function of the row count the
database reports for the issued DELETE: the source throws a not-found
error unless exactly one row was affected. -/
def deleteDataPoint (tablename dataPointId : String) (rowCount : Nat) :
    Except String Unit :=
  if rowCount != 1 then
    .error ("[query " ++ deleteDataPointQuery tablename dataPointId ++
      "] No data point found to delete for data_point_id: " ++ dataPointId)
  else
    return ()

/-! Embedding of the table provisioner (`createNewTableFromGehlFields`). -/

/-- The `GehlFields` union type of the source. -/
inductive GehlField where
  | gender
  | age
  | mode
  | posture
  | activities
  | groups
  | object
  | location
  | creation_date
  | last_updated
  | note
deriving DecidableEq, Fintype

/-- The name of a Gehl field, as it appears in the source's string union. -/
def GehlField.fieldName : GehlField → String
  | .gender => "gender"
  | .age => "age"
  | .mode => "mode"
  | .posture => "posture"
  | .activities => "activities"
  | .groups => "groups"
  | .object => "object"
  | .location => "location"
  | .creation_date => "creation_date"
  | .last_updated => "last_updated"
  | .note => "note"

/-- The character list of a field name. -/
def nameChars (f : GehlField) : List Char := f.fieldName.data

/-- `genderLocationArray` of the source. -/
def genderLocationArray : List GehlField := [.gender, .location]

/-- `allGehlFieldsArray` of the source, in declaration order. -/
def allGehlFieldsArray : List GehlField :=
  [.gender, .age, .mode, .posture, .activities, .groups, .object, .location,
   .creation_date, .last_updated, .note]

/-- First-occurrence deduplication with an accumulator of seen elements;
models the insertion-order iteration of a JS `Set`. -/
def dedupFirstAux (seen : List GehlField) : List GehlField → List GehlField
  | [] => []
  | x :: rest =>
    if x ∈ seen then dedupFirstAux seen rest
    else x :: dedupFirstAux (x :: seen) rest

/-- `new Set(fields)` as its insertion-ordered element list. -/
def dedupFirst (l : List GehlField) : List GehlField := dedupFirstAux [] l

/-- Comma-join of the field names of a list (JS `Array.prototype.toString`
on an array of field-name strings), at the character level. -/
def joinChars : List GehlField → List Char
  | [] => []
  | [f] => nameChars f
  | f :: rest => nameChars f ++ ',' :: joinChars rest

/-- `setString(s)` of the source: `Array.from(s).toString()` for a set
represented by its insertion-ordered element list. -/
def setString (s : List GehlField) : String := ⟨joinChars s⟩

/-- The column block of the `{gender, location}` CREATE TABLE statement,
copied verbatim from the source template literal. -/
def genderLocationColumns : String :=
  " (\n                    survey_id UUID references data_collection.survey(survey_id) NOT NULL,\n                    data_point_id UUID PRIMARY KEY NOT NULL,\n                    gender data_collection.gender,\n                    creation_date timestamptz,\n                    last_updated timestamptz,\n                    location geometry NOT NULL\n                    )"

/-- The column block of the all-fields CREATE TABLE statement, copied
verbatim from the source template literal. -/
def allGehlFieldsColumns : String :=
  " (\n                    survey_id UUID references data_collection.survey(survey_id) NOT NULL,\n                    data_point_id UUID PRIMARY KEY NOT NULL,\n                    gender data_collection.gender,\n                    age varchar(64),\n                    mode data_collection.mode,\n                    posture data_collection.posture,\n                    activities data_collection.activities[],\n                    groups data_collection.groups,\n                    object data_collection.object,\n                    location geometry NOT NULL,\n                    creation_date timestamptz,\n                    last_updated timestamptz,\n                    note text\n                    )"

/-- `createNewTableFromGehlFields(study, tablename, fields)`: switches on
the comma-joined deduplicated field names and either returns one of the two
supported CREATE TABLE statements or throws.  (The `study` argument of the
source is unused by the function body and omitted here.) -/
def createNewTableFromGehlFields (tablename : String) (fields : List GehlField) :
    Except String String :=
  let asSet := dedupFirst fields
  let comparisionString := setString asSet
  if comparisionString == setString (dedupFirst genderLocationArray) then
    return "CREATE TABLE " ++ tablename ++ genderLocationColumns
  else if comparisionString == setString (dedupFirst allGehlFieldsArray) then
    return "CREATE TABLE " ++ tablename ++ allGehlFieldsColumns
  else
    .error ("no table possible for selected fields: " ++ comparisionString)

/-- The DDL string taken out of a successful provisioning call (dummy on
error). -/
def ddlResult (r : Except String String) : String :=
  match r with
  | .ok s => s
  | .error _ => ""

/-- The column-definition text a field contributes to a CREATE TABLE
statement, for stating which columns a DDL statement contains. -/
def columnClause : GehlField → String
  | .gender => "gender data_collection.gender"
  | .age => "age varchar(64)"
  | .mode => "mode data_collection.mode"
  | .posture => "posture data_collection.posture"
  | .activities => "activities data_collection.activities[]"
  | .groups => "groups data_collection.groups"
  | .object => "object data_collection.object"
  | .location => "location geometry NOT NULL"
  | .creation_date => "creation_date timestamptz"
  | .last_updated => "last_updated timestamptz"
  | .note => "note text"

/-- The optional per-field columns of the schema (everything except the
mandatory `survey_id`, `data_point_id`, `location` and the timestamp
columns). -/
def optionalGehlFields : List GehlField :=
  [.gender, .age, .mode, .posture, .activities, .groups, .object, .note]

/-! Supporting lemmas. -/

@[simp] theorem exbind_ok {ε α β : Type} (a : α) (f : α → Except ε β) :
    (Except.ok a >>= f) = f a := rfl

@[simp] theorem exbind_error {ε α β : Type} (e : ε) (f : α → Except ε β) :
    ((Except.error e : Except ε α) >>= f) = Except.error e := rfl

theorem natCharsAux_no_dollar : ∀ fuel n, '$' ∉ natCharsAux fuel n := by
  intro fuel
  induction fuel with
  | zero => intro n; simp [natCharsAux]
  | succ fuel ih =>
    intro n
    simp only [natCharsAux]
    by_cases h : n < 10
    · have hd : digitChar n ≠ '$' := by
        unfold digitChar; split <;> decide
      simp [h, hd]
      intro hc
      exact hd hc.symm
    · have hd : digitChar (n % 10) ≠ '$' := by
        unfold digitChar; split <;> decide
      simp [h]
      refine ⟨ih (n / 10), ?_⟩
      intro hc
      exact hd hc.symm

theorem dollarCount_natStr (n : Nat) : dollarCount (natStr n) = 0 := by
  simp [dollarCount, natStr]
  exact List.count_eq_zero.mpr (natCharsAux_no_dollar (n + 1) n)

theorem dollarCount_append (s t : String) :
    dollarCount (s ++ t) = dollarCount s + dollarCount t := by
  simp [dollarCount, String.data_append, List.count_append]

theorem dollarCount_joinCS_append (l : List String) (b : String) :
    dollarCount (joinCS (l ++ [b])) = dollarCount (joinCS l) + dollarCount b := by
  induction l with
  | nil =>
    have h0 : dollarCount "" = 0 := by decide
    simp [joinCS, h0]
  | cons s rest ih =>
    cases rest with
    | nil =>
      show dollarCount (joinCS [s, b]) = _
      have hsep : dollarCount ", " = 0 := by decide
      simp [joinCS, dollarCount_append, hsep]
    | cons s2 rest2 =>
      show dollarCount (joinCS (s :: ((s2 :: rest2) ++ [b]))) = _
      have h1 : joinCS (s :: ((s2 :: rest2) ++ [b])) =
          s ++ ", " ++ joinCS ((s2 :: rest2) ++ [b]) := rfl
      have h2 : joinCS (s :: s2 :: rest2) = s ++ ", " ++ joinCS (s2 :: rest2) := rfl
      rw [h1, h2, dollarCount_append, dollarCount_append, dollarCount_append,
        dollarCount_append, ih]
      omega

theorem dollarCount_joinCS_zero (l : List String)
    (h : ∀ s ∈ l, dollarCount s = 0) : dollarCount (joinCS l) = 0 := by
  induction l with
  | nil => simp [joinCS]; decide
  | cons s rest ih =>
    cases rest with
    | nil => simpa [joinCS] using h s (by simp)
    | cons s2 rest2 =>
      have h1 : joinCS (s :: s2 :: rest2) = s ++ ", " ++ joinCS (s2 :: rest2) := rfl
      rw [h1, dollarCount_append, dollarCount_append]
      have hs := h s (by simp)
      have hrest := ih (fun x hx => h x (by simp [hx]))
      have hsep : dollarCount ", " = 0 := by decide
      omega

theorem dollarCount_simple_binding (i : Nat) :
    dollarCount ("$" ++ natStr i) = 1 := by
  rw [dollarCount_append, dollarCount_natStr]
  decide

theorem dollarCount_geojson_binding (i : Nat) :
    dollarCount ("ST_GeomFromGeoJSON($" ++ natStr i ++ ")") = 1 := by
  rw [dollarCount_append, dollarCount_append, dollarCount_natStr]
  decide

theorem dollarCount_geomtext_binding (i j : Nat) :
    dollarCount ("ST_GeomFromText($" ++ natStr i ++ ", $" ++ natStr j ++ ")") = 2 := by
  rw [dollarCount_append, dollarCount_append, dollarCount_append,
    dollarCount_append, dollarCount_natStr, dollarCount_natStr]
  decide

/-- Inversion of one successful reduction step: it decomposes into a
successful binding conversion and a successful value encoding, and the
accumulator grows by exactly one column, one binding and the wrapped
value(s). -/
theorem step_shape (acc : PSAcc) (k : String) (v : JSVal) (acc' : PSAcc)
    (h : processDataPointToPreparedStatement acc (k, v) = .ok acc') :
    ∃ i b w, convertKeyToParamterBinding acc.index k v = .ok (i, b) ∧
      processDataPointToValue k v = .ok w ∧
      acc' = { columns := acc.columns ++ [k],
               values := acc.values ++ wrapInArray w,
               parameterBindings := acc.parameterBindings ++ [b],
               index := i } := by
  simp only [processDataPointToPreparedStatement] at h
  cases hc : convertKeyToParamterBinding acc.index k v with
  | error e => rw [hc] at h; simp at h
  | ok ib =>
    obtain ⟨i, b⟩ := ib
    rw [hc] at h
    cases hp : processDataPointToValue k v with
    | error e => rw [hp] at h; simp at h
    | ok w =>
      rw [hp] at h
      simp at h
      exact ⟨i, b, w, rfl, rfl, h.symm⟩

/-- Inversion of a successful `foldlM` over `Except`. -/
theorem foldlM_cons_ok {α σ : Type} (f : σ → α → Except String σ)
    (a : σ) (x : α) (l : List α) (r : σ)
    (h : List.foldlM f a (x :: l) = .ok r) :
    ∃ a', f a x = .ok a' ∧ List.foldlM f a' l = .ok r := by
  rw [List.foldlM_cons] at h
  cases hx : f a x with
  | error e => rw [hx] at h; simp at h
  | ok a' => rw [hx] at h; exact ⟨a', rfl, h⟩

/-- A successful reduction appends exactly the entry keys to the column
list. -/
theorem foldl_columns (l : List (String × JSVal)) :
    ∀ (acc r : PSAcc),
      List.foldlM processDataPointToPreparedStatement acc l = .ok r →
      r.columns = acc.columns ++ l.map Prod.fst := by
  induction l with
  | nil => intro acc r h; simp [List.foldlM, pure, Except.pure] at h; simp [← h]
  | cons p rest ih =>
    intro acc r h
    obtain ⟨k, v⟩ := p
    obtain ⟨a', ha', hrest⟩ := foldlM_cons_ok _ _ _ _ _ h
    obtain ⟨i, b, w, _, _, hacc⟩ := step_shape _ _ _ _ ha'
    have := ih a' r hrest
    rw [this, hacc]
    simp

/-- Every entry of a successfully reduced list was encoded successfully. -/
theorem foldl_entries_ok (l : List (String × JSVal)) :
    ∀ (acc r : PSAcc),
      List.foldlM processDataPointToPreparedStatement acc l = .ok r →
      ∀ k v, (k, v) ∈ l → ∃ w, processDataPointToValue k v = .ok w := by
  induction l with
  | nil => intro acc r _ k v hm; simp at hm
  | cons p rest ih =>
    intro acc r h k v hm
    obtain ⟨k0, v0⟩ := p
    obtain ⟨a', ha', hrest⟩ := foldlM_cons_ok _ _ _ _ _ h
    rcases List.mem_cons.mp hm with hhead | htail
    · obtain ⟨i, b, w, _, hp, _⟩ := step_shape _ _ _ _ ha'
      injection hhead with hk hv
      subst hk; subst hv
      exact ⟨w, hp⟩
    · exact ih a' r hrest k v htail

/-- A successful bind of the postgres-array serializer into a string
constructor yields a string value. -/
theorem bind_pgarray_str (A : List JSVal) (w : JSVal)
    (h : (do
      let s ← javascriptArrayToPostgresArray A
      Except.ok (JSVal.str s)) = .ok w) : ∃ s, w = .str s := by
  cases harr : javascriptArrayToPostgresArray A with
  | error e => rw [harr] at h; simp at h
  | ok s =>
    rw [harr] at h
    simp at h
    exact ⟨s, h.symm⟩

/-- Every successful encoding of a non-`location` field produces a single
string value. -/
theorem pdv_nonlocation_str (k : String) (v w : JSVal)
    (hk : (k == "location") = false)
    (h : processDataPointToValue k v = .ok w) : ∃ s, w = .str s := by
  unfold processDataPointToValue at h
  simp only [hk, Bool.false_eq_true, if_false] at h
  repeat' split at h
  all_goals try (simp [pure, Except.pure] at h)
  all_goals try exact ⟨_, h.symm⟩
  all_goals exact bind_pgarray_str _ _ h

/-- `wrapInArray` of a `JSON.stringify` result always has one element. -/
theorem wrap_jsonStringify_length (v : JSVal) :
    (wrapInArray (jsonStringifyJS v)).length = 1 := by
  unfold jsonStringifyJS
  cases jsonStringifyVal v <;> simp [wrapInArray]

/-- The placeholder count of the binding produced for a field equals the
number of values produced for that field, and the placeholder index
advances by exactly that amount. -/
theorem step_aligned (i : Nat) (k : String) (v : JSVal) (i' : Nat) (b : String)
    (w : JSVal)
    (hc : convertKeyToParamterBinding i k v = .ok (i', b))
    (hp : processDataPointToValue k v = .ok w) :
    i' = i + (wrapInArray w).length ∧ dollarCount b = (wrapInArray w).length := by
  by_cases hk : (k == "location") = true
  · unfold convertKeyToParamterBinding at hc
    unfold processDataPointToValue at hp
    simp only [hk, if_true] at hc hp
    cases ht : getProp v "type" with
    | error e => rw [ht] at hc; simp at hc
    | ok t =>
      rw [ht] at hc hp
      simp only [exbind_ok] at hc hp
      by_cases hcond : (jsTruthy t && jsStrictEqStr t "Point") = true
      · simp only [hcond, if_true] at hc hp
        simp [pure, Except.pure] at hc hp
        obtain ⟨hi, hb⟩ := hc
        rw [← hp, wrap_jsonStringify_length, ← hi, ← hb]
        exact ⟨rfl, dollarCount_geojson_binding i⟩
      · simp only [hcond, Bool.false_eq_true, if_false] at hc hp
        cases hlon : getProp v "longitude" with
        | error e => rw [hlon] at hp; simp at hp
        | ok lon =>
          rw [hlon] at hp
          simp only [exbind_ok] at hp
          cases hlat : getProp v "latitude" with
          | error e => rw [hlat] at hp; simp at hp
          | ok lat =>
            rw [hlat] at hp
            simp [pure, Except.pure] at hc hp
            obtain ⟨hi, hb⟩ := hc
            rw [← hp, ← hi, ← hb]
            refine ⟨by simp [wrapInArray], ?_⟩
            rw [show (wrapInArray (.arr [lon, lat])).length = 2 by simp [wrapInArray]]
            exact dollarCount_geomtext_binding i (i + 1)
  · have hk' : (k == "location") = false := by
      cases hkk : (k == "location") with
      | false => rfl
      | true => exact absurd hkk hk
    unfold convertKeyToParamterBinding at hc
    simp only [hk', Bool.false_eq_true, if_false] at hc
    simp [pure, Except.pure] at hc
    obtain ⟨hi, hb⟩ := hc
    obtain ⟨s, hw⟩ := pdv_nonlocation_str k v w hk' hp
    rw [hw, show (wrapInArray (.str s)).length = 1 by simp [wrapInArray], ← hi, ← hb]
    exact ⟨rfl, dollarCount_simple_binding i⟩

/-- The lock-step invariant: along a successful reduction, the placeholder
count of the accumulated bindings equals the length of the accumulated
values, and the running index stays one ahead of that length. -/
theorem foldl_aligned (l : List (String × JSVal)) :
    ∀ (acc r : PSAcc),
      List.foldlM processDataPointToPreparedStatement acc l = .ok r →
      dollarCount (joinCS acc.parameterBindings) = acc.values.length →
      acc.index = acc.values.length + 1 →
      dollarCount (joinCS r.parameterBindings) = r.values.length ∧
        r.index = r.values.length + 1 := by
  induction l with
  | nil =>
    intro acc r h h1 h2
    simp [List.foldlM, pure, Except.pure] at h
    rw [← h]; exact ⟨h1, h2⟩
  | cons p rest ih =>
    intro acc r h h1 h2
    obtain ⟨k, v⟩ := p
    obtain ⟨a', ha', hrest⟩ := foldlM_cons_ok _ _ _ _ _ h
    obtain ⟨i, b, w, hc, hp, hacc⟩ := step_shape _ _ _ _ ha'
    obtain ⟨hi, hb⟩ := step_aligned _ _ _ _ _ _ hc hp
    refine ih a' r hrest ?_ ?_
    · rw [hacc]
      simp only []
      rw [dollarCount_joinCS_append, h1, hb]
      simp
    · rw [hacc]
      simp only []
      rw [hi, h2]
      simp
      omega

/-- A key of `objSet o k v` is a key of `o` or the assigned key. -/
theorem objSet_keys (o : List (String × JSVal)) (k k' : String) (v : JSVal)
    (h : k' ∈ (objSet o k v).map Prod.fst) : k' ∈ o.map Prod.fst ∨ k' = k := by
  unfold objSet at h
  split at h
  · rcases List.mem_map.mp h with ⟨p, hp, hfst⟩
    rcases List.mem_map.mp hp with ⟨q, hq, hfq⟩
    by_cases hqk : (q.1 == k) = true
    · rw [if_pos hqk] at hfq
      right; rw [← hfst, ← hfq]
    · rw [if_neg hqk] at hfq
      left; rw [← hfst, ← hfq]
      exact List.mem_map.mpr ⟨q, hq, rfl⟩
  · rw [List.map_append] at h
    rcases List.mem_append.mp h with h1 | h2
    · left; exact h1
    · right; simpa using h2

/-- When the assigned key is not present, `objSet` appends the pair. -/
theorem objSet_append (o : List (String × JSVal)) (k : String) (v : JSVal)
    (h : ∀ p ∈ o, (p.1 == k) = false) : objSet o k v = o ++ [(k, v)] := by
  unfold objSet
  rw [if_neg]
  simp only [List.any_eq_true, not_exists]
  intro p hp
  rw [h p hp.1] at hp
  exact Bool.false_ne_true hp.2

/-- A pair of `o` whose key differs from the assigned key survives
`objSet` unchanged. -/
theorem objSet_mem_preserved (o : List (String × JSVal)) (k k' : String)
    (v v' : JSVal) (hmem : (k', v') ∈ o) (hne : (k' == k) = false) :
    (k', v') ∈ objSet o k v := by
  unfold objSet
  split
  · refine List.mem_map.mpr ⟨(k', v'), hmem, ?_⟩
    simp [hne]
  · exact List.mem_append.mpr (Or.inl hmem)

/-- Every key of a stripped data point is one of the eleven Gehl field
names. -/
theorem deleteNonGehlFields_keys (dp : List (String × JSVal)) (k : String)
    (h : k ∈ (deleteNonGehlFields dp).map Prod.fst) :
    allGehlFieldsStrings.contains k = true := by
  rcases List.mem_map.mp h with ⟨p, hp, hfst⟩
  have := List.mem_filter.mp hp
  have hcond := this.2
  simp only [Bool.and_eq_true] at hcond
  rw [← hfst]
  exact hcond.1

/-- A pair of the data point whose key is a Gehl field and whose value is
not `null` survives into the record that gets encoded. -/
theorem mem_dataPointForPostgres (sid : String) (dp : List (String × JSVal))
    (k : String) (v : JSVal)
    (hmem : (k, v) ∈ dp)
    (hgehl : allGehlFieldsStrings.contains k = true)
    (hnn : isNullB v = false) :
    (k, v) ∈ dataPointForPostgres sid dp := by
  have hsurvey : (k == "survey_id") = false := by
    have : k ∈ allGehlFieldsStrings := by simpa using hgehl
    fin_cases this <;> decide
  have hdpid : (k == "data_point_id") = false := by
    have : k ∈ allGehlFieldsStrings := by simpa using hgehl
    fin_cases this <;> decide
  have h1 : (k, v) ∈ deleteNonGehlFields dp := by
    apply List.mem_filter.mpr
    refine ⟨hmem, ?_⟩
    simp only [Bool.and_eq_true]
    exact ⟨hgehl, by simp [hnn]⟩
  unfold dataPointForPostgres
  exact objSet_mem_preserved _ _ _ _ _
    (objSet_mem_preserved _ _ _ _ _ h1 hsurvey) hdpid

/-- Every key of the record that gets encoded is a Gehl field name or one
of the two force-set identifiers. -/
theorem dataPointForPostgres_keys (sid : String) (dp : List (String × JSVal))
    (k : String) (h : k ∈ (dataPointForPostgres sid dp).map Prod.fst) :
    allGehlFieldsStrings.contains k = true ∨ k = "survey_id" ∨ k = "data_point_id" := by
  unfold dataPointForPostgres at h
  rcases objSet_keys _ _ _ _ h with h1 | h1
  · rcases objSet_keys _ _ _ _ h1 with h2 | h2
    · exact Or.inl (deleteNonGehlFields_keys dp k h2)
    · exact Or.inr (Or.inl h2)
  · exact Or.inr (Or.inr h1)

/-- Gehl field names contain no placeholder marker. -/
theorem gehl_name_dollarfree (k : String)
    (h : allGehlFieldsStrings.contains k = true) : dollarCount k = 0 := by
  have hm : k ∈ allGehlFieldsStrings := by simpa using h
  fin_cases hm <;> decide

/-- Inversion of a successful `transformToPostgresInsert`: the reduction
succeeded and the query and values are assembled from its accumulator. -/
theorem transform_ok_acc (sid : String) (dp : List (String × JSVal))
    (r : InsertResult) (h : transformToPostgresInsert sid dp = .ok r) :
    ∃ acc, processKeyAndValues (dataPointForPostgres sid dp) = .ok acc ∧
      r.query = insertStatementFor acc ++
        "\n            ON CONFLICT(data_point_id)\n            DO UPDATE SET(" ++
        joinCS acc.columns ++ ") = (" ++ joinCS acc.parameterBindings ++ ")" ∧
      r.values = acc.values := by
  unfold transformToPostgresInsert at h
  cases hacc : processKeyAndValues (dataPointForPostgres sid dp) with
  | error e => rw [hacc] at h; simp at h
  | ok acc =>
    rw [hacc] at h
    simp [pure, Except.pure] at h
    exact ⟨acc, rfl, by rw [← h]; exact ⟨rfl, rfl⟩⟩

theorem nameChars_comma_free : ∀ f : GehlField, ',' ∉ nameChars f := by decide

theorem nameChars_ne_nil : ∀ f : GehlField, nameChars f ≠ [] := by decide

theorem nameChars_inj : ∀ f g : GehlField, nameChars f = nameChars g → f = g := by
  decide

theorem joinChars_ne_nil : ∀ (f : GehlField) (l : List GehlField),
    joinChars (f :: l) ≠ [] := by
  intro f l
  cases l with
  | nil => exact nameChars_ne_nil f
  | cons g rest =>
    show nameChars f ++ ',' :: joinChars (g :: rest) ≠ []
    simp

/-- Unique decomposition at the first comma: comma-free blocks followed by
a comma-headed tail determine each other. -/
theorem append_comma_inj : ∀ (a b x y : List Char), ',' ∉ a → ',' ∉ b →
    a ++ ',' :: x = b ++ ',' :: y → a = b ∧ x = y := by
  intro a
  induction a with
  | nil =>
    intro b x y _ hb h
    cases b with
    | nil => simp at h; simp [h]
    | cons c bs =>
      simp at h
      exact absurd (by rw [h.1]; simp : ',' ∈ c :: bs) hb
  | cons c as ih =>
    intro b x y ha hb h
    cases b with
    | nil =>
      simp at h
      exact absurd (by rw [← h.1]; simp : ',' ∈ c :: as) ha
    | cons d bs =>
      simp at h
      obtain ⟨hcd, hrest⟩ := h
      have ha' : ',' ∉ as := fun hm => ha (List.mem_cons_of_mem _ hm)
      have hb' : ',' ∉ bs := fun hm => hb (List.mem_cons_of_mem _ hm)
      obtain ⟨h1, h2⟩ := ih bs x y ha' hb' hrest
      exact ⟨by rw [hcd, h1], h2⟩

/-- The comma-join of field names is injective: field names are nonempty
and comma-free, so the joined string decomposes uniquely. -/
theorem joinChars_inj : ∀ l1 l2 : List GehlField,
    joinChars l1 = joinChars l2 → l1 = l2
  | [], [], _ => rfl
  | [], g :: r2, h => absurd h.symm (joinChars_ne_nil g r2)
  | f :: r1, [], h => absurd h (joinChars_ne_nil f r1)
  | [f], [g], h => by rw [nameChars_inj f g h]
  | [f], g :: g2 :: r2, h => by
    have hc : ',' ∈ nameChars f := by
      show ',' ∈ joinChars [f]
      rw [h]
      show ',' ∈ nameChars g ++ ',' :: joinChars (g2 :: r2)
      simp
    exact absurd hc (nameChars_comma_free f)
  | f :: f2 :: r1, [g], h => by
    have hc : ',' ∈ nameChars g := by
      show ',' ∈ joinChars [g]
      rw [← h]
      show ',' ∈ nameChars f ++ ',' :: joinChars (f2 :: r1)
      simp
    exact absurd hc (nameChars_comma_free g)
  | f :: f2 :: r1, g :: g2 :: r2, h => by
    have h' : nameChars f ++ ',' :: joinChars (f2 :: r1) =
        nameChars g ++ ',' :: joinChars (g2 :: r2) := h
    obtain ⟨h1, h2⟩ := append_comma_inj _ _ _ _
      (nameChars_comma_free f) (nameChars_comma_free g) h'
    have hfg := nameChars_inj f g h1
    have htail := joinChars_inj (f2 :: r1) (g2 :: r2) h2
    rw [hfg, htail]

/-- `setString` is injective on insertion-ordered set representations. -/
theorem setString_inj (l1 l2 : List GehlField)
    (h : setString l1 = setString l2) : l1 = l2 := by
  unfold setString at h
  exact joinChars_inj l1 l2 (by injection h)

theorem dedupFirst_genderLocation :
    dedupFirst genderLocationArray = genderLocationArray := by decide

theorem dedupFirst_allGehlFields :
    dedupFirst allGehlFieldsArray = allGehlFieldsArray := by decide

/-- Membership is preserved by first-occurrence deduplication. -/
theorem mem_dedupFirstAux : ∀ (l : List GehlField) (seen : List GehlField)
    (x : GehlField), x ∈ dedupFirstAux seen l ↔ (x ∈ l ∧ x ∉ seen) := by
  intro l
  induction l with
  | nil => intro seen x; simp [dedupFirstAux]
  | cons y rest ih =>
    intro seen x
    unfold dedupFirstAux
    by_cases hy : y ∈ seen
    · rw [if_pos hy, ih]
      constructor
      · rintro ⟨hx, hs⟩
        exact ⟨List.mem_cons_of_mem _ hx, hs⟩
      · rintro ⟨hx, hs⟩
        rcases List.mem_cons.mp hx with rfl | hx'
        · exact absurd hy hs
        · exact ⟨hx', hs⟩
    · rw [if_neg hy]
      simp only [List.mem_cons, ih]
      constructor
      · rintro (rfl | ⟨hx, hs⟩)
        · exact ⟨Or.inl rfl, hy⟩
        · refine ⟨Or.inr hx, ?_⟩
          intro hc
          exact hs (Or.inr hc)
      · rintro ⟨rfl | hx, hs⟩
        · exact Or.inl rfl
        · by_cases hxy : x = y
          · exact Or.inl hxy
          · exact Or.inr ⟨hx, by simp [hs, hxy]⟩

theorem mem_dedupFirst (l : List GehlField) (x : GehlField) :
    x ∈ dedupFirst l ↔ x ∈ l := by
  unfold dedupFirst
  rw [mem_dedupFirstAux]
  simp

/-- A substring of the right part is a substring of a concatenation. -/
theorem listHasSub_append_left : ∀ (a b pat : List Char),
    listHasSub b pat = true → listHasSub (a ++ b) pat = true := by
  intro a
  induction a with
  | nil => intro b pat h; simpa using h
  | cons c cs ih =>
    intro b pat h
    show listHasSub (c :: (cs ++ b)) pat = true
    unfold listHasSub
    rw [ih b pat h]
    simp

theorem strContains_append (a b pat : String)
    (h : strContains b pat = true) : strContains (a ++ b) pat = true := by
  unfold strContains at h ⊢
  rw [String.data_append]
  exact listHasSub_append_left a.data b.data pat.data h

/-- If serializing some element throws, serializing the list throws. -/
theorem pgArrayElems_cons_head_err (x : JSVal) (rest : List JSVal)
    (hx : exErr (pgArrayElem x) = true) :
    exErr (pgArrayElems (x :: rest)) = true := by
  unfold pgArrayElems
  cases he : pgArrayElem x with
  | error e => simp [he, exErr]
  | ok e => rw [he] at hx; simp [exErr] at hx

/-- If serializing the tail throws, serializing the list throws. -/
theorem pgArrayElems_cons_tail_err (x : JSVal) (rest : List JSVal)
    (hrest : exErr (pgArrayElems rest) = true) :
    exErr (pgArrayElems (x :: rest)) = true := by
  unfold pgArrayElems
  cases he : pgArrayElem x with
  | error e => simp [he, exErr]
  | ok e =>
    cases hr : pgArrayElems rest with
    | error e2 => simp [he, hr, exErr]
    | ok es => rw [hr] at hrest; simp [exErr] at hrest

/-- If the element serialization throws, the array serializer throws. -/
theorem jsArr_err_of_elems (ys : List JSVal)
    (h : exErr (pgArrayElems ys) = true) :
    exErr (javascriptArrayToPostgresArray ys) = true := by
  unfold javascriptArrayToPostgresArray
  cases hr : pgArrayElems ys with
  | error e => simp [hr, exErr]
  | ok es => rw [hr] at h; simp [exErr] at h

/-- A JS array containing `null` at any depth cannot be serialized: the
serializer throws. -/
theorem pgArrayElems_null : ∀ xs, hasNullDeep xs = true →
    exErr (pgArrayElems xs) = true
  | [], h => absurd h (by simp [hasNullDeep])
  | .null :: rest, _ =>
    pgArrayElems_cons_head_err _ rest (by simp [pgArrayElem, exErr])
  | .arr ys :: rest, h => by
    have hsplit : (hasNullDeep ys || hasNullDeep rest) = true := by
      simpa [hasNullDeep] using h
    rcases Bool.or_eq_true_iff.mp hsplit with hys | hrest
    · refine pgArrayElems_cons_head_err _ rest ?_
      have harr : pgArrayElem (JSVal.arr ys) = javascriptArrayToPostgresArray ys := rfl
      rw [harr]
      exact jsArr_err_of_elems ys (pgArrayElems_null ys hys)
    · exact pgArrayElems_cons_tail_err _ rest (pgArrayElems_null rest hrest)
  | .undef :: rest, h =>
    pgArrayElems_cons_tail_err _ rest
      (pgArrayElems_null rest (by simpa [hasNullDeep, valHasNull] using h))
  | .str s :: rest, h =>
    pgArrayElems_cons_tail_err _ rest
      (pgArrayElems_null rest (by simpa [hasNullDeep, valHasNull] using h))
  | .num n :: rest, h =>
    pgArrayElems_cons_tail_err _ rest
      (pgArrayElems_null rest (by simpa [hasNullDeep, valHasNull] using h))
  | .bool b :: rest, h =>
    pgArrayElems_cons_tail_err _ rest
      (pgArrayElems_null rest (by simpa [hasNullDeep, valHasNull] using h))
  | .obj fs :: rest, h =>
    pgArrayElems_cons_tail_err _ rest
      (pgArrayElems_null rest (by simpa [hasNullDeep, valHasNull] using h))

theorem javascriptArrayToPostgresArray_null (xs : List JSVal)
    (h : hasNullDeep xs = true) :
    exErr (javascriptArrayToPostgresArray xs) = true :=
  jsArr_err_of_elems xs (pgArrayElems_null xs h)

/-- If encoding any entry of the record throws, the whole transformation
throws. -/
theorem transform_err_of_entry (sid : String) (dp : List (String × JSVal))
    (k : String) (v : JSVal)
    (hmem : (k, v) ∈ dataPointForPostgres sid dp)
    (herr : exErr (processDataPointToValue k v) = true) :
    exErr (transformToPostgresInsert sid dp) = true := by
  cases htr : transformToPostgresInsert sid dp with
  | error e => simp [exErr]
  | ok r =>
    obtain ⟨acc, hacc, _, _⟩ := transform_ok_acc _ _ _ htr
    obtain ⟨w, hw⟩ := foldl_entries_ok _ _ _ hacc k v hmem
    rw [hw] at herr
    simp [exErr] at herr

/-- Branch analysis of a successful provisioning call: the deduplicated
field list is one of the two supported selections and the DDL is the
corresponding template. -/
theorem create_ok_cases (t : String) (fields : List GehlField) (s : String)
    (h : createNewTableFromGehlFields t fields = .ok s) :
    (dedupFirst fields = genderLocationArray ∧
      s = "CREATE TABLE " ++ t ++ genderLocationColumns) ∨
    (dedupFirst fields = allGehlFieldsArray ∧
      s = "CREATE TABLE " ++ t ++ allGehlFieldsColumns) := by
  simp only [createNewTableFromGehlFields] at h
  by_cases h1 : (setString (dedupFirst fields) ==
      setString (dedupFirst genderLocationArray)) = true
  · rw [if_pos h1] at h
    simp [pure, Except.pure] at h
    left
    refine ⟨?_, h.symm⟩
    have := setString_inj _ _ (by simpa using h1)
    rw [this, dedupFirst_genderLocation]
  · rw [if_neg h1] at h
    by_cases h2 : (setString (dedupFirst fields) ==
        setString (dedupFirst allGehlFieldsArray)) = true
    · rw [if_pos h2] at h
      simp [pure, Except.pure] at h
      right
      refine ⟨?_, h.symm⟩
      have := setString_inj _ _ (by simpa using h2)
      rw [this, dedupFirst_allGehlFields]
    · rw [if_neg h2] at h
      simp at h

/-- Provisioning succeeds exactly for the two supported selections, taken
as insertion-ordered deduplicated field lists. -/
theorem create_ok_iff (t : String) (fields : List GehlField) :
    exOk (createNewTableFromGehlFields t fields) = true ↔
      (dedupFirst fields = genderLocationArray ∨
       dedupFirst fields = allGehlFieldsArray) := by
  constructor
  · intro h
    cases hc : createNewTableFromGehlFields t fields with
    | error e => rw [hc] at h; simp [exOk] at h
    | ok s =>
      rcases create_ok_cases t fields s hc with ⟨hd, _⟩ | ⟨hd, _⟩
      · exact Or.inl hd
      · exact Or.inr hd
  · intro h
    simp only [createNewTableFromGehlFields, dedupFirst_genderLocation,
      dedupFirst_allGehlFields]
    rcases h with hd | hd
    · rw [hd]
      rw [if_pos (by simp :
        (setString genderLocationArray == setString genderLocationArray) = true)]
      simp [exOk, pure, Except.pure]
    · rw [hd]
      have h1 : (setString allGehlFieldsArray == setString genderLocationArray) = false := by
        decide
      rw [if_neg (by simp [h1])]
      rw [if_pos (by simp :
        (setString allGehlFieldsArray == setString allGehlFieldsArray) = true)]
      simp [exOk, pure, Except.pure]

/-! Claim theorems. -/

/-- C9: for every surveyId and dataPointId, `deleteDataPoint` throws a
not-found error whenever the issued DELETE affects zero rows, and returns
normally exactly when one row was affected; repeated deletion of an
already-deleted id is an error, never a silent success. -/
theorem c9_delete_not_found_on_zero_rows (tablename dataPointId : String) :
    exErr (deleteDataPoint tablename dataPointId 0) = true ∧
    ∀ rowCount, exOk (deleteDataPoint tablename dataPointId rowCount) = true ↔
      rowCount = 1 := by
  constructor
  · rfl
  · intro n
    constructor
    · intro h
      by_contra hne
      unfold deleteDataPoint at h
      rw [if_pos (by simpa using hne)] at h
      simp [exOk] at h
    · rintro rfl
      rfl

/-- C9 witness: with one affected row the delete returns normally; with
zero affected rows it throws. -/
theorem c9_delete_not_found_on_zero_rows_witness :
    exOk (deleteDataPoint "data_collection.study_1" "dp1" 1) = true ∧
    exErr (deleteDataPoint "data_collection.study_1" "dp1" 0) = true :=
  ⟨((c9_delete_not_found_on_zero_rows "data_collection.study_1" "dp1").2 1).mpr rfl,
   (c9_delete_not_found_on_zero_rows "data_collection.study_1" "dp1").1⟩

/-- C2 (amended): provisioning succeeds iff the deduplicated field list in
first-occurrence order equals the exact sequence `[gender, location]` or
the exact eleven-field declaration-order sequence; the comparison is on the
insertion-ordered comma-joined name string, so a mere set equality (same
names in a different first-occurrence order) is not sufficient. -/
theorem c2_provisioning_ok_iff_supported_sequence (tablename : String)
    (fields : List GehlField) :
    exOk (createNewTableFromGehlFields tablename fields) = true ↔
      (dedupFirst fields = genderLocationArray ∨
       dedupFirst fields = allGehlFieldsArray) :=
  create_ok_iff tablename fields

/-- C2 witness: the canonical `[gender, location]` selection provisions a
table. -/
theorem c2_provisioning_ok_iff_supported_sequence_witness :
    exOk (createNewTableFromGehlFields "data_collection.study_1"
      genderLocationArray) = true :=
  (c2_provisioning_ok_iff_supported_sequence "data_collection.study_1"
    genderLocationArray).mpr (Or.inl (by decide))

/-- C2 counterexample: `[location, gender]` denotes the same set of field
names as `[gender, location]`, yet provisioning throws for it and succeeds
for the other order — refuting the claim that the call returns a CREATE
TABLE statement if and only if the *set* of names is supported. -/
theorem c2_set_equality_insufficient_cex :
    exErr (createNewTableFromGehlFields "t"
      [GehlField.location, GehlField.gender]) = true ∧
    ([GehlField.location, GehlField.gender] : List GehlField).toFinset =
      ([GehlField.gender, GehlField.location] : List GehlField).toFinset ∧
    exOk (createNewTableFromGehlFields "t"
      [GehlField.gender, GehlField.location]) = true := by
  refine ⟨by decide, by decide, by decide⟩

/-- C10: a data point whose activities list contains `null`, directly or
inside a nested list, is rejected: the array serializer throws, the
activities encoding throws, and the whole transformation throws, so no
statement (and hence no array literal with a serialized null element) is
produced. -/
theorem c10_null_in_activities_rejected (xs : List JSVal)
    (h : hasNullDeep xs = true) :
    exErr (javascriptArrayToPostgresArray xs) = true ∧
    exErr (processDataPointToValue "activities" (.arr xs)) = true ∧
    ∀ sid dp, ("activities", JSVal.arr xs) ∈ dp →
      exErr (transformToPostgresInsert sid dp) = true := by
  have h1 := javascriptArrayToPostgresArray_null xs h
  have h2 : exErr (processDataPointToValue "activities" (.arr xs)) = true := by
    unfold processDataPointToValue
    simp only [show (("activities" : String) == "location") = false from rfl,
      show (("activities" : String) == "groups") = false from rfl,
      show (("activities" : String) == "age") = false from rfl,
      show (("activities" : String) == "activities") = true from rfl,
      Bool.false_eq_true, if_false, if_true]
    cases harr : javascriptArrayToPostgresArray xs with
    | error e => simp [harr, exErr]
    | ok s => rw [harr] at h1; simp [exErr] at h1
  refine ⟨h1, h2, ?_⟩
  intro sid dp hmem
  refine transform_err_of_entry sid dp _ _ ?_ h2
  exact mem_dataPointForPostgres sid dp _ _ hmem (by decide) rfl

/-- C10 witness: the one-element list containing `null` is rejected at
every level. -/
theorem c10_null_in_activities_rejected_witness :
    exErr (javascriptArrayToPostgresArray [JSVal.null]) = true ∧
    exErr (transformToPostgresInsert "s1"
      [("activities", JSVal.arr [JSVal.null])]) = true :=
  ⟨(c10_null_in_activities_rejected [JSVal.null] (by rfl)).1,
   (c10_null_in_activities_rejected [JSVal.null] (by rfl)).2.2 "s1"
     [("activities", JSVal.arr [JSVal.null])] (by simp)⟩

/-- C8: encoding remaps the categorical labels through the fixed tables
(age: child, young, adult, elderly; groups: single, pair, group, crowd);
any other label for age or groups throws a validation error, and a data
point containing such a label is rejected whole, with no statement
produced. -/
theorem c8_categorical_label_tables :
    (processDataPointToValue "age" (.str "child") = .ok (.str "0-14") ∧
     processDataPointToValue "age" (.str "young") = .ok (.str "15-24") ∧
     processDataPointToValue "age" (.str "adult") = .ok (.str "25-64") ∧
     processDataPointToValue "age" (.str "elderly") = .ok (.str "65+")) ∧
    (processDataPointToValue "groups" (.str "single") = .ok (.str "group_1") ∧
     processDataPointToValue "groups" (.str "pair") = .ok (.str "group_2") ∧
     processDataPointToValue "groups" (.str "group") = .ok (.str "group_3-7") ∧
     processDataPointToValue "groups" (.str "crowd") = .ok (.str "group_8+")) ∧
    (∀ s : String, s ∉ (["child", "young", "adult", "elderly"] : List String) →
       exErr (processDataPointToValue "age" (.str s)) = true) ∧
    (∀ s : String, s ∉ (["single", "pair", "group", "crowd"] : List String) →
       exErr (processDataPointToValue "groups" (.str s)) = true) ∧
    (∀ sid dp, ("age", JSVal.str "teen") ∈ dp →
       exErr (transformToPostgresInsert sid dp) = true) := by
  refine ⟨⟨rfl, rfl, rfl, rfl⟩, ⟨rfl, rfl, rfl, rfl⟩, ?_, ?_, ?_⟩
  · intro s hs
    simp only [List.mem_cons, List.not_mem_nil, or_false, not_or] at hs
    obtain ⟨h1, h2, h3, h4⟩ := hs
    unfold processDataPointToValue
    simp only [show (("age" : String) == "location") = false from rfl,
      show (("age" : String) == "groups") = false from rfl,
      show (("age" : String) == "age") = true from rfl,
      Bool.false_eq_true, if_false, if_true]
    simp [jsStrictEqStr, h1, h2, h3, h4, exErr]
  · intro s hs
    simp only [List.mem_cons, List.not_mem_nil, or_false, not_or] at hs
    obtain ⟨h1, h2, h3, h4⟩ := hs
    unfold processDataPointToValue
    simp only [show (("groups" : String) == "location") = false from rfl,
      show (("groups" : String) == "groups") = true from rfl,
      Bool.false_eq_true, if_false, if_true]
    simp [jsStrictEqStr, h1, h2, h3, h4, exErr]
  · intro sid dp hmem
    refine transform_err_of_entry sid dp "age" (JSVal.str "teen") ?_ (by rfl)
    exact mem_dataPointForPostgres sid dp _ _ hmem (by decide) rfl

/-- C8 witness: `age: teen` and `groups: flock` are rejected, both at the
field level and for a whole data point. -/
theorem c8_categorical_label_tables_witness :
    exErr (processDataPointToValue "age" (.str "teen")) = true ∧
    exErr (processDataPointToValue "groups" (.str "flock")) = true ∧
    exErr (transformToPostgresInsert "s1" [("age", JSVal.str "teen")]) = true :=
  ⟨c8_categorical_label_tables.2.2.1 "teen" (by decide),
   c8_categorical_label_tables.2.2.2.1 "flock" (by decide),
   c8_categorical_label_tables.2.2.2.2 "s1" [("age", JSVal.str "teen")] (by simp)⟩

/-- C1 (amended): a key outside the eleven Gehl fields (other than the
force-set `survey_id` and `data_point_id`) is silently stripped by
`deleteNonGehlFields` before the statement is built: it never appears among
the keys of the encoded record nor in the column list, and encoding does
not fail because of it (the unknown-field error of `processDataPointToValue`
is unreachable through `transformToPostgresInsert`). -/
theorem c1_unknown_keys_stripped (sid : String) (dp : List (String × JSVal))
    (k : String)
    (hk : allGehlFieldsStrings.contains k = false)
    (hs : k ≠ "survey_id") (hd : k ≠ "data_point_id") :
    k ∉ (dataPointForPostgres sid dp).map Prod.fst ∧
    (∀ acc, processKeyAndValues (dataPointForPostgres sid dp) = .ok acc →
      k ∉ acc.columns) := by
  have hnot : k ∉ (dataPointForPostgres sid dp).map Prod.fst := by
    intro hmem
    rcases dataPointForPostgres_keys sid dp k hmem with h1 | h1 | h1
    · rw [hk] at h1; cases h1
    · exact hs h1
    · exact hd h1
  refine ⟨hnot, ?_⟩
  intro acc hacc
  have hcols := foldl_columns _ _ _ hacc
  rw [hcols]
  simpa using hnot

/-- C1 witness: the unknown key `foo` is stripped and never reaches the
column list. -/
theorem c1_unknown_keys_stripped_witness :
    "foo" ∉ (dataPointForPostgres "sid" [("foo", JSVal.str "bar")]).map Prod.fst ∧
    (∀ acc, processKeyAndValues
        (dataPointForPostgres "sid" [("foo", JSVal.str "bar")]) = .ok acc →
      "foo" ∉ acc.columns) :=
  c1_unknown_keys_stripped "sid" [("foo", JSVal.str "bar")] "foo"
    (by decide) (by decide) (by decide)

/-- C1 counterexample: a data point containing the unknown key `foo`
encodes successfully — the key is silently dropped and an INSERT fragment
is produced — refuting the claim that encoding fails with an unknown-field
error and produces no statement. -/
theorem c1_unknown_key_not_rejected_cex :
    transformToPostgresInsert "sid" [("foo", JSVal.str "bar")] =
      .ok { query := "(survey_id, data_point_id) VALUES ($1, $2)\n            ON CONFLICT(data_point_id)\n            DO UPDATE SET(survey_id, data_point_id) = ($1, $2)",
            values := [JSVal.str "sid", JSVal.str "undefined"] } := rfl

/-- Looking a key up is unaffected by filtering out pairs with a different
key. -/
theorem find?_filter_eq (l : List (String × JSVal)) (key k : String)
    (hne : (key == k) = false) :
    List.find? (fun p => p.1 == key) (l.filter (fun p => !(p.1 == k))) =
    List.find? (fun p => p.1 == key) l := by
  induction l with
  | nil => rfl
  | cons p rest ih =>
    rw [List.filter_cons]
    by_cases hpk : (p.1 == k) = true
    · have hp1 : p.1 = k := by simpa using hpk
      have hkey : (p.1 == key) = false := by
        rw [hp1]
        have hkk : ¬ key = k := by simpa using hne
        simp
        exact fun he => hkk he.symm
      rw [if_neg (by simp [hpk])]
      rw [List.find?_cons_of_neg _ (by simp [hkey])]
      exact ih
    · rw [if_pos (by simp [hpk])]
      by_cases hkey : (p.1 == key) = true
      · rw [List.find?_cons_of_pos _ (by simp [hkey]),
          List.find?_cons_of_pos _ (by simp [hkey])]
      · rw [List.find?_cons_of_neg _ (by simp [hkey]),
          List.find?_cons_of_neg _ (by simp [hkey])]
        exact ih

/-- Stripping is unaffected by first removing the pairs of a key whose
values are all `null`: those pairs are stripped anyway. -/
theorem deleteNonGehlFields_filter (dp : List (String × JSVal)) (k : String)
    (hnull : ∀ v, (k, v) ∈ dp → isNullB v = true) :
    deleteNonGehlFields (dp.filter (fun p => !(p.1 == k))) =
      deleteNonGehlFields dp := by
  unfold deleteNonGehlFields
  induction dp with
  | nil => rfl
  | cons p rest ih =>
    obtain ⟨p1, p2⟩ := p
    have hnull' : ∀ v, (k, v) ∈ rest → isNullB v = true :=
      fun v hv => hnull v (List.mem_cons_of_mem _ hv)
    rw [List.filter_cons]
    by_cases hpk : ((p1, p2).1 == k) = true
    · rw [if_neg (by simp [hpk])]
      rw [ih hnull']
      rw [List.filter_cons]
      have hp1 : p1 = k := by simpa using hpk
      have hnl : isNullB p2 = true := by
        refine hnull p2 ?_
        rw [← hp1]
        exact List.mem_cons_self _ _
      rw [if_neg (by simp [hnl])]
    · rw [if_pos (by simp [hpk])]
      rw [List.filter_cons, List.filter_cons]
      by_cases hP : (allGehlFieldsStrings.contains (p1, p2).1 &&
          !(isNullB (p1, p2).2)) = true
      · rw [if_pos (by simpa using hP), if_pos (by simpa using hP), ih hnull']
      · rw [if_neg (by simpa using hP), if_neg (by simpa using hP)]
        exact ih hnull'

/-- C6 (amended): a key among the eleven Gehl fields all of whose values
are strictly `null` is dropped by `deleteNonGehlFields`: it appears in no
column list, and the whole transformation behaves exactly as if the field
had not been supplied at all (so the data point is not rejected because of
it).  Only `null` is stripped — an `undefined` value is NOT dropped. -/
theorem c6_null_fields_dropped (sid : String) (dp : List (String × JSVal))
    (k : String)
    (hgehl : allGehlFieldsStrings.contains k = true)
    (hnull : ∀ v, (k, v) ∈ dp → isNullB v = true) :
    k ∉ (deleteNonGehlFields dp).map Prod.fst ∧
    transformToPostgresInsert sid dp =
      transformToPostgresInsert sid (dp.filter (fun p => !(p.1 == k))) ∧
    (∀ acc, processKeyAndValues (dataPointForPostgres sid dp) = .ok acc →
      k ∉ acc.columns) := by
  have hks : k ≠ "survey_id" := by
    have hm : k ∈ allGehlFieldsStrings := by simpa using hgehl
    fin_cases hm <;> decide
  have hkd : k ≠ "data_point_id" := by
    have hm : k ∈ allGehlFieldsStrings := by simpa using hgehl
    fin_cases hm <;> decide
  have h1 : k ∉ (deleteNonGehlFields dp).map Prod.fst := by
    intro hmem
    rcases List.mem_map.mp hmem with ⟨p, hp, hfst⟩
    have hfilter := List.mem_filter.mp hp
    have hpair : (k, p.2) ∈ dp := by
      have : (p.1, p.2) = p := rfl
      rw [← hfst]
      rw [show (p.1, p.2) = p from rfl]
      exact hfilter.1
    have hn := hnull p.2 hpair
    have hcond := hfilter.2
    simp only [Bool.and_eq_true] at hcond
    rw [hn] at hcond
    simp at hcond
  refine ⟨h1, ?_, ?_⟩
  · have hrec : dataPointForPostgres sid dp =
        dataPointForPostgres sid (dp.filter (fun p => !(p.1 == k))) := by
      unfold dataPointForPostgres
      rw [deleteNonGehlFields_filter dp k hnull]
      have hobj : objGet (dp.filter (fun p => !(p.1 == k))) "data_point_id" =
          objGet dp "data_point_id" := by
        unfold objGet
        rw [find?_filter_eq dp "data_point_id" k
          (by simp; exact fun he => hkd he.symm)]
      rw [hobj]
    unfold transformToPostgresInsert
    rw [hrec]
  · intro acc hacc
    have hcols := foldl_columns _ _ _ hacc
    rw [hcols]
    simp only [List.mem_append]
    rintro (hin | hin)
    · simp at hin
    · unfold dataPointForPostgres at hin
      rcases objSet_keys _ _ _ _ hin with h2 | h2
      · rcases objSet_keys _ _ _ _ h2 with h3 | h3
        · exact h1 h3
        · exact hks h3
      · exact hkd h2

/-- C6 witness: a `null`-valued gender is dropped and the encoding equals
the encoding of the data point without the field. -/
theorem c6_null_fields_dropped_witness :
    "gender" ∉ (deleteNonGehlFields
      [("gender", JSVal.null), ("note", JSVal.str "x")]).map Prod.fst ∧
    transformToPostgresInsert "s1" [("gender", JSVal.null), ("note", JSVal.str "x")] =
      transformToPostgresInsert "s1"
        ([("gender", JSVal.null), ("note", JSVal.str "x")].filter
          (fun p => !(p.1 == "gender"))) ∧
    (∀ acc, processKeyAndValues (dataPointForPostgres "s1"
        [("gender", JSVal.null), ("note", JSVal.str "x")]) = .ok acc →
      "gender" ∉ acc.columns) := by
  refine c6_null_fields_dropped "s1" _ "gender" (by decide) ?_
  intro v hv
  rcases List.mem_cons.mp hv with h | h
  · injection h with h1 h2
    rw [h2]
    rfl
  · simp at h

/-- C6 counterexample: an `undefined`-valued gender field is NOT dropped:
it appears in the column list, consumes a placeholder, and is encoded as
the string `undefined` — refuting the claim that null-or-undefined-valued
fields are dropped entirely. -/
theorem c6_undefined_not_dropped_cex :
    transformToPostgresInsert "s" [("gender", JSVal.undef), ("data_point_id", JSVal.str "d")] =
      .ok { query := "(gender, survey_id, data_point_id) VALUES ($1, $2, $3)\n            ON CONFLICT(data_point_id)\n            DO UPDATE SET(gender, survey_id, data_point_id) = ($1, $2, $3)",
            values := [JSVal.str "undefined", JSVal.str "s", JSVal.str "d"] } := rfl

/-- C7: every successful encoding produces an upsert whose INSERT column
list and placeholder list are repeated verbatim — the same column list
assigned to the same placeholder list — after an
`ON CONFLICT(data_point_id) DO UPDATE SET` clause. -/
theorem c7_upsert_on_conflict_same_lists (sid : String)
    (dp : List (String × JSVal))
    (h : exOk (transformToPostgresInsert sid dp) = true) :
    ∃ cols binds,
      (insResult (transformToPostgresInsert sid dp)).query =
        "(" ++ cols ++ ") VALUES (" ++ binds ++ ")" ++
        "\n            ON CONFLICT(data_point_id)\n            DO UPDATE SET(" ++
        cols ++ ") = (" ++ binds ++ ")" := by
  cases htr : transformToPostgresInsert sid dp with
  | error e => rw [htr] at h; simp [exOk] at h
  | ok r =>
    obtain ⟨acc, hacc, hq, hv⟩ := transform_ok_acc _ _ _ htr
    refine ⟨joinCS acc.columns, joinCS acc.parameterBindings, ?_⟩
    show r.query = _
    rw [hq]
    rfl

/-- C7 witness: a concrete successful encoding exhibits the repeated
column and placeholder lists. -/
theorem c7_upsert_on_conflict_same_lists_witness :
    ∃ cols binds,
      (insResult (transformToPostgresInsert "s2"
        [("data_point_id", JSVal.str "d"), ("gender", JSVal.str "male")])).query =
        "(" ++ cols ++ ") VALUES (" ++ binds ++ ")" ++
        "\n            ON CONFLICT(data_point_id)\n            DO UPDATE SET(" ++
        cols ++ ") = (" ++ binds ++ ")" :=
  c7_upsert_on_conflict_same_lists "s2"
    [("data_point_id", JSVal.str "d"), ("gender", JSVal.str "male")] (by rfl)

/-- C3: for every raw data point that encodes successfully, the number of
parameter placeholders in the produced statement fragment equals the length
of the produced values array, the final placeholder index minus one equals
that length, and the values of the produced statement are exactly the
accumulated values. -/
theorem c3_placeholders_values_aligned (sid : String)
    (dp : List (String × JSVal)) (acc : PSAcc)
    (h : processKeyAndValues (dataPointForPostgres sid dp) = .ok acc) :
    dollarCount (insertStatementFor acc) = acc.values.length ∧
    acc.index - 1 = acc.values.length ∧
    ∀ r, transformToPostgresInsert sid dp = .ok r → r.values = acc.values := by
  have halign := foldl_aligned (dataPointForPostgres sid dp)
    { columns := [], values := [], parameterBindings := [], index := 1 } acc h
    (by rfl) (by rfl)
  have hcolsfree : ∀ c ∈ acc.columns, dollarCount c = 0 := by
    intro c hc
    have hcols := foldl_columns _ _ _ h
    rw [hcols] at hc
    have hc2 : c ∈ (dataPointForPostgres sid dp).map Prod.fst := by
      simpa using hc
    rcases dataPointForPostgres_keys sid dp c hc2 with h1 | h1 | h1
    · exact gehl_name_dollarfree c h1
    · rw [h1]; decide
    · rw [h1]; decide
  have hfrag : dollarCount (insertStatementFor acc) =
      dollarCount (joinCS acc.parameterBindings) := by
    unfold insertStatementFor
    rw [dollarCount_append, dollarCount_append, dollarCount_append,
      dollarCount_append, dollarCount_joinCS_zero acc.columns hcolsfree]
    have c1 : dollarCount "(" = 0 := by decide
    have c2 : dollarCount ") VALUES (" = 0 := by decide
    have c3 : dollarCount ")" = 0 := by decide
    omega
  have hidx : acc.index - 1 = acc.values.length := by
    have := halign.2
    omega
  refine ⟨by rw [hfrag]; exact halign.1, hidx, ?_⟩
  intro r htr
  obtain ⟨acc', hacc', _, hval⟩ := transform_ok_acc _ _ _ htr
  rw [h] at hacc'
  injection hacc' with heq
  rw [hval, heq]

/-- C3 witness: a data point with a longitude/latitude location encodes to
four values and four placeholders (two of them for the location), with the
final index 5. -/
theorem c3_placeholders_values_aligned_witness :
    dollarCount (insertStatementFor
      { columns := ["location", "survey_id", "data_point_id"],
        values := [JSVal.num 7, JSVal.num 8, JSVal.str "s", JSVal.str "d"],
        parameterBindings := ["ST_GeomFromText($1, $2)", "$3", "$4"],
        index := 5 }) =
      (PSAcc.mk ["location", "survey_id", "data_point_id"]
        [JSVal.num 7, JSVal.num 8, JSVal.str "s", JSVal.str "d"]
        ["ST_GeomFromText($1, $2)", "$3", "$4"] 5).values.length ∧
    (PSAcc.mk ["location", "survey_id", "data_point_id"]
        [JSVal.num 7, JSVal.num 8, JSVal.str "s", JSVal.str "d"]
        ["ST_GeomFromText($1, $2)", "$3", "$4"] 5).index - 1 =
      (PSAcc.mk ["location", "survey_id", "data_point_id"]
        [JSVal.num 7, JSVal.num 8, JSVal.str "s", JSVal.str "d"]
        ["ST_GeomFromText($1, $2)", "$3", "$4"] 5).values.length ∧
    ∀ r, transformToPostgresInsert "s"
        [("location", JSVal.obj [("longitude", JSVal.num 7), ("latitude", JSVal.num 8)]),
         ("data_point_id", JSVal.str "d")] = .ok r →
      r.values = (PSAcc.mk ["location", "survey_id", "data_point_id"]
        [JSVal.num 7, JSVal.num 8, JSVal.str "s", JSVal.str "d"]
        ["ST_GeomFromText($1, $2)", "$3", "$4"] 5).values :=
  c3_placeholders_values_aligned "s"
    [("location", JSVal.obj [("longitude", JSVal.num 7), ("latitude", JSVal.num 8)]),
     ("data_point_id", JSVal.str "d")]
    (PSAcc.mk ["location", "survey_id", "data_point_id"]
      [JSVal.num 7, JSVal.num 8, JSVal.str "s", JSVal.str "d"]
      ["ST_GeomFromText($1, $2)", "$3", "$4"] 5) (by rfl)

/-- The binding conversion for a `location` value, by branch. -/
theorem convert_location (i : Nat) (v t : JSVal)
    (ht : getProp v "type" = .ok t) :
    ((jsTruthy t && jsStrictEqStr t "Point") = true →
      convertKeyToParamterBinding i "location" v =
        .ok (i + 1, "ST_GeomFromGeoJSON($" ++ natStr i ++ ")")) ∧
    ((jsTruthy t && jsStrictEqStr t "Point") = false →
      convertKeyToParamterBinding i "location" v =
        .ok (i + 2, "ST_GeomFromText($" ++ natStr i ++ ", $" ++ natStr (i + 1) ++ ")")) := by
  unfold convertKeyToParamterBinding
  rw [if_pos (show (("location" : String) == "location") = true from rfl)]
  rw [ht]
  simp only [exbind_ok]
  constructor
  · intro hc; rw [if_pos hc]; rfl
  · intro hc; rw [if_neg (by simp [hc])]; rfl

/-- The value encoding for a `location` value, by branch. -/
theorem pdv_location (v t : JSVal) (ht : getProp v "type" = .ok t) :
    ((jsTruthy t && jsStrictEqStr t "Point") = true →
      processDataPointToValue "location" v = .ok (jsonStringifyJS v)) ∧
    ((jsTruthy t && jsStrictEqStr t "Point") = false →
      ∃ lon lat, getProp v "longitude" = .ok lon ∧
        getProp v "latitude" = .ok lat ∧
        processDataPointToValue "location" v = .ok (.arr [lon, lat])) := by
  unfold processDataPointToValue
  rw [if_pos (show (("location" : String) == "location") = true from rfl)]
  rw [ht]
  simp only [exbind_ok]
  constructor
  · intro hc; rw [if_pos hc]; rfl
  · intro hc
    rw [if_neg (by simp [hc])]
    cases v with
    | null => exact absurd ht (by simp [getProp])
    | undef => exact absurd ht (by simp [getProp])
    | str s => exact ⟨.undef, .undef, rfl, rfl, rfl⟩
    | num n => exact ⟨.undef, .undef, rfl, rfl, rfl⟩
    | bool b => exact ⟨.undef, .undef, rfl, rfl, rfl⟩
    | arr xs => exact ⟨.undef, .undef, rfl, rfl, rfl⟩
    | obj fs => exact ⟨_, _, rfl, rfl, rfl⟩

/-- A value whose `type` property is truthy and strictly `'Point'` is an
object, so `JSON.stringify` yields a string for it. -/
theorem point_branch_obj (v t : JSVal) (ht : getProp v "type" = .ok t)
    (hc : (jsTruthy t && jsStrictEqStr t "Point") = true) :
    ∃ s, jsonStringifyVal v = some s ∧ jsonStringifyJS v = .str s := by
  cases v with
  | null => exact absurd ht (by simp [getProp])
  | undef => exact absurd ht (by simp [getProp])
  | obj fs => exact ⟨_, rfl, rfl⟩
  | str s =>
    have h := ht
    simp [getProp] at h
    rw [← h] at hc
    simp [jsTruthy] at hc
  | num n =>
    have h := ht
    simp [getProp] at h
    rw [← h] at hc
    simp [jsTruthy] at hc
  | bool b =>
    have h := ht
    simp [getProp] at h
    rw [← h] at hc
    simp [jsTruthy] at hc
  | arr xs =>
    have h := ht
    simp [getProp] at h
    rw [← h] at hc
    simp [jsTruthy] at hc

/-- C5 (amended): for every location value on which JS property access
succeeds (not `null`/`undefined` — those throw a TypeError instead): if
its `type` is strictly `'Point'`, encoding emits a single
`ST_GeomFromGeoJSON($n)` binding whose one bound value is the
JSON-serialized GeoJSON text, advancing the index by one; otherwise
encoding emits `ST_GeomFromText($n, $n+1)` with exactly two bound values,
longitude first, latitude second, advancing the index by two. -/
theorem c5_location_encoding (i : Nat) (v t : JSVal)
    (ht : getProp v "type" = .ok t) :
    ((jsTruthy t && jsStrictEqStr t "Point") = true →
      convertKeyToParamterBinding i "location" v =
        .ok (i + 1, "ST_GeomFromGeoJSON($" ++ natStr i ++ ")") ∧
      ∃ s, jsonStringifyVal v = some s ∧
        processDataPointToValue "location" v = .ok (.str s) ∧
        wrapInArray (.str s) = [.str s]) ∧
    ((jsTruthy t && jsStrictEqStr t "Point") = false →
      convertKeyToParamterBinding i "location" v =
        .ok (i + 2, "ST_GeomFromText($" ++ natStr i ++ ", $" ++ natStr (i + 1) ++ ")") ∧
      ∃ lon lat, getProp v "longitude" = .ok lon ∧
        getProp v "latitude" = .ok lat ∧
        processDataPointToValue "location" v = .ok (.arr [lon, lat]) ∧
        wrapInArray (.arr [lon, lat]) = [lon, lat]) := by
  constructor
  · intro hc
    refine ⟨(convert_location i v t ht).1 hc, ?_⟩
    obtain ⟨s, hsv, hjs⟩ := point_branch_obj v t ht hc
    refine ⟨s, hsv, ?_, rfl⟩
    have hp := (pdv_location v t ht).1 hc
    rw [hjs] at hp
    exact hp
  · intro hc
    refine ⟨(convert_location i v t ht).2 hc, ?_⟩
    obtain ⟨lon, lat, h1, h2, h3⟩ := (pdv_location v t ht).2 hc
    exact ⟨lon, lat, h1, h2, h3, rfl⟩

/-- C5 witness: a GeoJSON Point produces one binding whose value is its
serialized text; a longitude/latitude pair produces the two-placeholder
binding with the longitude first. -/
theorem c5_location_encoding_witness :
    convertKeyToParamterBinding 1 "location"
      (JSVal.obj [("type", JSVal.str "Point"), ("coordinates", JSVal.arr [JSVal.num 1, JSVal.num 2])]) =
      .ok (2, "ST_GeomFromGeoJSON($1)") ∧
    processDataPointToValue "location"
      (JSVal.obj [("type", JSVal.str "Point"), ("coordinates", JSVal.arr [JSVal.num 1, JSVal.num 2])]) =
      .ok (.str "\x7b\"type\":\"Point\",\"coordinates\":[1,2]\x7d") ∧
    convertKeyToParamterBinding 3 "location"
      (JSVal.obj [("longitude", JSVal.num 7), ("latitude", JSVal.num 8)]) =
      .ok (5, "ST_GeomFromText($3, $4)") ∧
    processDataPointToValue "location"
      (JSVal.obj [("longitude", JSVal.num 7), ("latitude", JSVal.num 8)]) =
      .ok (.arr [JSVal.num 7, JSVal.num 8]) := by
  refine ⟨?_, ?_, ?_, ?_⟩
  · exact ((c5_location_encoding 1
      (JSVal.obj [("type", JSVal.str "Point"), ("coordinates", JSVal.arr [JSVal.num 1, JSVal.num 2])])
      (JSVal.str "Point") (by rfl)).1 (by rfl)).1
  · obtain ⟨s, hsv, hpv, _⟩ := ((c5_location_encoding 1
      (JSVal.obj [("type", JSVal.str "Point"), ("coordinates", JSVal.arr [JSVal.num 1, JSVal.num 2])])
      (JSVal.str "Point") (by rfl)).1 (by rfl)).2
    have hcomp : jsonStringifyVal
        (JSVal.obj [("type", JSVal.str "Point"), ("coordinates", JSVal.arr [JSVal.num 1, JSVal.num 2])]) =
        some "\x7b\"type\":\"Point\",\"coordinates\":[1,2]\x7d" := rfl
    rw [hcomp] at hsv
    injection hsv with hs
    rw [← hs] at hpv
    exact hpv
  · exact ((c5_location_encoding 3
      (JSVal.obj [("longitude", JSVal.num 7), ("latitude", JSVal.num 8)])
      JSVal.undef (by rfl)).2 (by rfl)).1
  · obtain ⟨lon, lat, h1, h2, h3⟩ := ((c5_location_encoding 3
      (JSVal.obj [("longitude", JSVal.num 7), ("latitude", JSVal.num 8)])
      JSVal.undef (by rfl)).2 (by rfl)).2
    have h1' : (Except.ok (JSVal.num 7) : Except String JSVal) = .ok lon := h1
    have h2' : (Except.ok (JSVal.num 8) : Except String JSVal) = .ok lat := h2
    injection h1' with hlon
    injection h2' with hlat
    rw [← hlon, ← hlat] at h3
    exact h3.1

/-- C5 counterexample: a data point whose `location` value is `undefined`
has no `type` of Point, yet encoding does not emit the two-placeholder
well-known-text binding — it throws a TypeError (property access on
`undefined`) and the whole data point is rejected. -/
theorem c5_undefined_location_throws_cex :
    exErr (convertKeyToParamterBinding 1 "location" JSVal.undef) = true ∧
    exErr (processDataPointToValue "location" JSVal.undef) = true ∧
    exErr (transformToPostgresInsert "s" [("location", JSVal.undef)]) = true :=
  ⟨rfl, rfl, rfl⟩

/-- C4 (amended): every successfully provisioned DDL consists of
`CREATE TABLE`, the table name and one of the two fixed column blocks; it
always contains the not-null `survey_id` foreign-key column, the
`data_point_id` primary-key column, the not-null geometry `location`
column AND the `creation_date`/`last_updated` timestamp columns (the
timestamps appear even when they are not in the selection); each remaining
optional column appears if and only if its field is in the selection. -/
theorem c4_ddl_columns (t : String) (fields : List GehlField) (s : String)
    (h : createNewTableFromGehlFields t fields = .ok s) :
    ∃ cols, (cols = genderLocationColumns ∨ cols = allGehlFieldsColumns) ∧
      s = "CREATE TABLE " ++ t ++ cols ∧
      strContains s "survey_id UUID references data_collection.survey(survey_id) NOT NULL" = true ∧
      strContains s "data_point_id UUID PRIMARY KEY NOT NULL" = true ∧
      strContains s "location geometry NOT NULL" = true ∧
      strContains s "creation_date timestamptz" = true ∧
      strContains s "last_updated timestamptz" = true ∧
      ∀ f ∈ optionalGehlFields,
        (strContains cols (columnClause f) = true ↔ f ∈ fields) := by
  rcases create_ok_cases t fields s h with ⟨hd, hs⟩ | ⟨hd, hs⟩
  · refine ⟨genderLocationColumns, Or.inl rfl, hs, ?_, ?_, ?_, ?_, ?_, ?_⟩
    · rw [hs]; exact strContains_append _ _ _ (by decide)
    · rw [hs]; exact strContains_append _ _ _ (by decide)
    · rw [hs]; exact strContains_append _ _ _ (by decide)
    · rw [hs]; exact strContains_append _ _ _ (by decide)
    · rw [hs]; exact strContains_append _ _ _ (by decide)
    · intro f hf
      have hmemiff : f ∈ fields ↔ f ∈ genderLocationArray := by
        rw [← hd, mem_dedupFirst]
      rw [hmemiff]
      fin_cases hf <;> decide
  · refine ⟨allGehlFieldsColumns, Or.inr rfl, hs, ?_, ?_, ?_, ?_, ?_, ?_⟩
    · rw [hs]; exact strContains_append _ _ _ (by decide)
    · rw [hs]; exact strContains_append _ _ _ (by decide)
    · rw [hs]; exact strContains_append _ _ _ (by decide)
    · rw [hs]; exact strContains_append _ _ _ (by decide)
    · rw [hs]; exact strContains_append _ _ _ (by decide)
    · intro f hf
      have hmemiff : f ∈ fields ↔ f ∈ allGehlFieldsArray := by
        rw [← hd, mem_dedupFirst]
      rw [hmemiff]
      fin_cases hf <;> decide

/-- C4 witness: the `[gender, location]` selection provisions a DDL with
the mandatory columns, the timestamps, and exactly the selected optional
columns. -/
theorem c4_ddl_columns_witness :
    ∃ cols, (cols = genderLocationColumns ∨ cols = allGehlFieldsColumns) ∧
      ("CREATE TABLE " ++ "tbl" ++ genderLocationColumns) =
        "CREATE TABLE " ++ "tbl" ++ cols ∧
      strContains ("CREATE TABLE " ++ "tbl" ++ genderLocationColumns)
        "survey_id UUID references data_collection.survey(survey_id) NOT NULL" = true ∧
      strContains ("CREATE TABLE " ++ "tbl" ++ genderLocationColumns)
        "data_point_id UUID PRIMARY KEY NOT NULL" = true ∧
      strContains ("CREATE TABLE " ++ "tbl" ++ genderLocationColumns)
        "location geometry NOT NULL" = true ∧
      strContains ("CREATE TABLE " ++ "tbl" ++ genderLocationColumns)
        "creation_date timestamptz" = true ∧
      strContains ("CREATE TABLE " ++ "tbl" ++ genderLocationColumns)
        "last_updated timestamptz" = true ∧
      ∀ f ∈ optionalGehlFields,
        (strContains cols (columnClause f) = true ↔ f ∈ genderLocationArray) :=
  c4_ddl_columns "tbl" genderLocationArray
    ("CREATE TABLE " ++ "tbl" ++ genderLocationColumns) (by rfl)

/-- C4 counterexample: the `{gender, location}` selection produces a DDL
containing `creation_date` and `last_updated` columns although those
fields are not in the selection — refuting the claim that a column appears
only for fields present in the selection. -/
theorem c4_timestamps_not_in_selection_cex :
    createNewTableFromGehlFields "t" [GehlField.gender, GehlField.location] =
      .ok ("CREATE TABLE " ++ "t" ++ genderLocationColumns) ∧
    strContains ("CREATE TABLE " ++ "t" ++ genderLocationColumns)
      (columnClause GehlField.creation_date) = true ∧
    strContains ("CREATE TABLE " ++ "t" ++ genderLocationColumns)
      (columnClause GehlField.last_updated) = true ∧
    GehlField.creation_date ∉ [GehlField.gender, GehlField.location] ∧
    GehlField.last_updated ∉ [GehlField.gender, GehlField.location] :=
  ⟨rfl, by decide, by decide, by decide, by decide⟩

end Commonspace
